import Mathlib

/-!
Shallow embedding of the Echo-System mesh orchestrator core
(shared/types.go, orchestrator/registry.go, orchestrator/pipeline.go,
orchestrator/main.go), together with theorems settling the spec claims.

Machine integers are modelled as `Int` where the Go code uses signed ints
whose values matter (active task counters, millisecond timestamps) and as
`Nat` for ports.  Go strings are Lean `String`s; the template scanner works
on `List Char`.  The Go `map[string]*NodeInfo` registry is modelled as a
list of rows; every mutation acts pointwise on the rows whose id matches,
which coincides with the map semantics because registration never creates
a duplicate id.  Go map iteration order is unspecified, so the list order
stands in for one arbitrary iteration order.
-/

namespace EchoMesh

/-- shared/types.go: TaskType is a string; `TaskTypeAny = ""` means no
preference. -/
abbrev TaskType := String

def TaskTypeAny : TaskType := ""

/-- shared/types.go: NodeStatus is a string. -/
abbrev NodeStatus := String

def StatusIdle : NodeStatus := "idle"

def StatusBusy : NodeStatus := "busy"

def StatusOverloaded : NodeStatus := "overloaded"

def StatusOffline : NodeStatus := "offline"

/-- shared/types.go: ModelCapability — one model name plus the task types
it handles. -/
structure ModelCapability where
  name : String
  types : List TaskType
deriving DecidableEq

/-- shared/types.go: NodeInfo — a registry row.  `activeTasks` is a Go
signed int, hence `Int`. -/
structure NodeInfo where
  nodeID : String
  agentPort : Nat
  ollamaPort : Nat
  models : List String
  capabilities : List ModelCapability
  status : NodeStatus
  activeTasks : Int
  lastHeartbeat : Int
  registeredAt : Int
deriving DecidableEq

/-- shared/types.go: TaskRequest. -/
structure TaskRequest where
  taskID : String
  prompt : String
  type : TaskType
  modelHint : String
deriving DecidableEq

/-- shared/types.go: TaskResult. -/
structure TaskResult where
  taskID : String
  content : String
  routedTo : String
  modelUsed : String
  taskType : TaskType
  latencyMs : Int
  success : Bool
  error : String
deriving DecidableEq

/-- shared/types.go: RegisterRequest (no host field is declared). -/
structure RegisterRequest where
  nodeID : String
  agentPort : Nat
  ollamaPort : Nat
  models : List String
  capabilities : List ModelCapability
  status : NodeStatus
deriving DecidableEq

/-- shared/types.go: HeartbeatRequest; `activeTasks` is a Go signed int
written verbatim into the registry row. -/
structure HeartbeatRequest where
  nodeID : String
  status : NodeStatus
  activeTasks : Int
deriving DecidableEq

/-- shared/types.go: PipelineStep. -/
structure PipelineStep where
  type : TaskType
  modelHint : String
  promptTemplate : String
deriving DecidableEq

/-- shared/types.go: PipelineRequest. -/
structure PipelineRequest where
  pipelineID : String
  steps : List PipelineStep
  initialInput : String
deriving DecidableEq

/-- shared/types.go: PipelineStepResult. -/
structure PipelineStepResult where
  stepIndex : Nat
  taskID : String
  type : TaskType
  routedTo : String
  modelUsed : String
  content : String
  latencyMs : Int
  success : Bool
  error : String
deriving DecidableEq

/-- shared/types.go: PipelineResult. -/
structure PipelineResult where
  pipelineID : String
  steps : List PipelineStepResult
  finalOutput : String
  totalSteps : Nat
  latencyMs : Int
  success : Bool
  error : String
deriving DecidableEq

/-- shared/types.go `BestModelForType`, inner loop: first capability whose
type list contains `t` gives its model name, else `""`. -/
def firstModelFor (t : TaskType) : List ModelCapability → String
  | [] => ""
  | c :: rest => if c.types.contains t then c.name else firstModelFor t rest

/-- shared/types.go `BestModelForType`. -/
def BestModelForType (caps : List ModelCapability) (t : TaskType) : String :=
  if t = TaskTypeAny then
    match caps with
    | [] => ""
    | c :: _ => c.name
  else firstModelFor t caps

/-- shared/types.go `CanHandle`: BestModelForType is non-empty. -/
def CanHandle (caps : List ModelCapability) (t : TaskType) : Bool :=
  BestModelForType caps t != ""

/-- orchestrator/registry.go `containsModel`. -/
def containsModel (models : List String) (target : String) : Bool :=
  models.contains target

/-- The registry table: the rows of the Go `map[string]*NodeInfo`. -/
abbrev Reg := List NodeInfo

/-- Pointwise update of every row whose id matches (map-style upsert of an
existing key). -/
def setNode (s : Reg) (id : String) (f : NodeInfo → NodeInfo) : Reg :=
  s.map fun n => if n.nodeID = id then f n else n

/-- Row lookup by id (the Go `r.nodes[id]` read). -/
def lookup (s : Reg) (id : String) : Option NodeInfo :=
  s.find? fun n => n.nodeID == id

/-- orchestrator/registry.go `Register`: upsert the row, status `idle`,
`active_tasks` 0, both timestamps stamped `now`. -/
def Register (s : Reg) (req : RegisterRequest) (now : Int) : Reg :=
  let fresh : NodeInfo :=
    { nodeID := req.nodeID, agentPort := req.agentPort,
      ollamaPort := req.ollamaPort, models := req.models,
      capabilities := req.capabilities, status := StatusIdle,
      activeTasks := 0, lastHeartbeat := now, registeredAt := now }
  if s.any (fun n => n.nodeID == req.nodeID) then
    setNode s req.nodeID fun _ => fresh
  else s ++ [fresh]

/-- orchestrator/registry.go `Heartbeat`: unknown id returns `false`;
otherwise stamps `last_heartbeat` and writes the reported status and
active task count verbatim. -/
def Heartbeat (s : Reg) (req : HeartbeatRequest) (now : Int) : Reg × Bool :=
  if s.any (fun n => n.nodeID == req.nodeID) then
    (setNode s req.nodeID fun n =>
      { n with lastHeartbeat := now, status := req.status,
               activeTasks := req.activeTasks }, true)
  else (s, false)

/-- orchestrator/registry.go `IncrementLoad`. -/
def IncrementLoad (s : Reg) (id : String) : Reg :=
  setNode s id fun n =>
    let a := n.activeTasks + 1
    { n with activeTasks := a, status := if a ≥ 5 then StatusBusy else n.status }

/-- orchestrator/registry.go `DecrementLoad`: bounded at 0 below; any
result below the 5-task threshold resets the status to `idle`. -/
def DecrementLoad (s : Reg) (id : String) : Reg :=
  setNode s id fun n =>
    let a := if n.activeTasks > 0 then n.activeTasks - 1 else n.activeTasks
    { n with activeTasks := a, status := if a < 5 then StatusIdle else n.status }

/-- orchestrator/registry.go `MarkSuspect`. -/
def MarkSuspect (s : Reg) (id : String) : Reg :=
  setNode s id fun n => { n with status := StatusOverloaded }

/-- orchestrator/registry.go `isAlive`: heartbeat seen less than 15000 ms
ago. -/
def isAlive (now : Int) (n : NodeInfo) : Bool :=
  decide (now - n.lastHeartbeat < 15000)

/-- orchestrator/registry.go eviction loop body: a non-offline stale row
is flipped to `offline`. -/
def evictPass (s : Reg) (now : Int) : Reg :=
  s.map fun n =>
    if n.status != StatusOffline && !(isAlive now n) then
      { n with status := StatusOffline }
    else n

/-- orchestrator/registry.go `findBest` candidate filter. -/
def isCandidate (now : Int) (exclude : List String) (n : NodeInfo) : Bool :=
  !(exclude.contains n.nodeID) && isAlive now n &&
    n.status != StatusOverloaded && n.status != StatusOffline

/-- orchestrator/registry.go `findBest.pickBetter`: keep the strictly
lighter node. -/
def pickBetter (current : Option NodeInfo) (candidate : NodeInfo) : Option NodeInfo :=
  match current with
  | none => some candidate
  | some m => if candidate.activeTasks < m.activeTasks then some candidate else some m

/-- Tier-1 guard of `findBest`: a model hint was given and the node's flat
model list contains it. -/
def tier1Cond (modelHint : String) (n : NodeInfo) : Bool :=
  modelHint != "" && containsModel n.models modelHint

/-- Tier-2 guard of `findBest`: a task type was given and `CanHandle`
accepts it. -/
def tier2Cond (taskType : TaskType) (n : NodeInfo) : Bool :=
  taskType != TaskTypeAny && CanHandle n.capabilities taskType

/-- The accumulator loop of `findBest`: every candidate is placed in the
first tier whose guard accepts it and competes on `activeTasks` there. -/
def findTiers (now : Int) (taskType : TaskType) (modelHint : String)
    (exclude : List String) :
    Reg → Option NodeInfo × Option NodeInfo × Option NodeInfo
  | [] => (none, none, none)
  | n :: rest =>
    let (t1, t2, t3) := findTiers now taskType modelHint exclude rest
    if !(isCandidate now exclude n) then (t1, t2, t3)
    else if tier1Cond modelHint n then (pickBetter t1 n, t2, t3)
    else if tier2Cond taskType n then (t1, pickBetter t2 n, t3)
    else (t1, t2, pickBetter t3 n)

/-- orchestrator/registry.go `findBest`: highest non-empty tier wins;
`none` models the `no node available` error. -/
def findBest (now : Int) (taskType : TaskType) (modelHint : String)
    (exclude : List String) (s : Reg) : Option NodeInfo :=
  match findTiers now taskType modelHint exclude s with
  | (some w, _, _) => some w
  | (none, some w, _) => some w
  | (none, none, some w) => some w
  | (none, none, none) => none

/-- orchestrator/main.go `routeWithFailover`.  The network call is an
oracle `fwd` from the chosen node's id to the Go `forwardTask` outcome:
`Except.error` is a transport or decode error, `Except.ok` any decoded
`TaskResult` (its `success` flag is never inspected by the code).  The
deferred `DecrementLoad` runs when the frame returns, i.e. after the
recursive call, which the model reproduces.  `fuel` bounds the recursion
depth; each retry adds the tried node to the exclusion list, so any fuel
larger than the number of rows is enough. -/
def routeWithFailover (fwd : String → Except String TaskResult) (now : Int)
    (req : TaskRequest) :
    Nat → List String → Reg → Except String TaskResult × Reg
  | 0, _, s => (Except.error "out of fuel", s)
  | fuel + 1, tried, s =>
    match findBest now req.type req.modelHint tried s with
    | none => (Except.error "no more nodes to try", s)
    | some node =>
      let s1 := IncrementLoad s node.nodeID
      match fwd node.nodeID with
      | Except.error _ =>
        let s2 := MarkSuspect s1 node.nodeID
        match routeWithFailover fwd now req fuel (tried ++ [node.nodeID]) s2 with
        | (r, s3) => (r, DecrementLoad s3 node.nodeID)
      | Except.ok res =>
        (Except.ok { res with routedTo := node.nodeID, taskType := req.type,
                              success := true },
         DecrementLoad s1 node.nodeID)

/-- orchestrator/main.go `forwardTask`: the URL of the unary forward,
`fmt.Sprintf("http://localhost:%d/execute", node.AgentPort)`. -/
def forwardTaskURL (n : NodeInfo) : String :=
  "http://localhost:" ++ toString n.agentPort ++ "/execute"

/-- orchestrator/main.go `forwardTaskStream`: the URL of the streaming
forward, `fmt.Sprintf("http://localhost:%d/execute/stream", node.AgentPort)`. -/
def forwardTaskStreamURL (n : NodeInfo) : String :=
  "http://localhost:" ++ toString n.agentPort ++ "/execute/stream"

/-- Outcome of `POST /task`: 400, 503, or a 200 body. -/
inductive TaskEndpointResp where
  | badRequest (msg : String)
  | unavailable
  | ok (result : TaskResult)
deriving DecidableEq

/-- Outcome of `POST /task/stream`: 400, 503, or the stream forwarded to
the chosen node with the request that is sent to it. -/
inductive StreamResp where
  | badRequest (msg : String)
  | unavailable
  | streamTo (nodeID : String) (req : TaskRequest)
deriving DecidableEq

/-- orchestrator/main.go `handleTask`.  `body = none` is a JSON decode
failure; `uuid` is the server-generated task id.  The wall-clock latency
stamp on the 200 body is elided. -/
def handleTask (fwd : String → Except String TaskResult) (now : Int) (s : Reg)
    (body : Option TaskRequest) (uuid : String) : TaskEndpointResp :=
  match body with
  | none => TaskEndpointResp.badRequest "invalid request body"
  | some req0 =>
    let req := if req0.taskID = "" then { req0 with taskID := uuid } else req0
    if req.prompt = "" then TaskEndpointResp.badRequest "prompt is required"
    else
      match (routeWithFailover fwd now req (s.length + 1) [] s).1 with
      | Except.error _ => TaskEndpointResp.unavailable
      | Except.ok res => TaskEndpointResp.ok res

/-- orchestrator/main.go `handleTaskStream`: decode, default the task id,
select once via `FindBestNode` (empty exclusion), and stream — there is no
prompt check. -/
def handleTaskStream (now : Int) (s : Reg) (body : Option TaskRequest)
    (uuid : String) : StreamResp :=
  match body with
  | none => StreamResp.badRequest "invalid request body"
  | some req0 =>
    let req := if req0.taskID = "" then { req0 with taskID := uuid } else req0
    match findBest now req.type req.modelHint [] s with
    | none => StreamResp.unavailable
    | some node => StreamResp.streamTo node.nodeID req

/-- The literal placeholder `{{prev_output}}`. -/
def phPrev : List Char := "{{prev_output}}".data

/-- The literal placeholder `{{initial_input}}`. -/
def phInit : List Char := "{{initial_input}}".data

/-- The literal placeholder `{{step_index}}`. -/
def phIdx : List Char := "{{step_index}}".data

/-- `pat` matches at the head of `l`. -/
def matchesAt (pat l : List Char) : Bool :=
  match pat, l with
  | [], _ => true
  | _ :: _, [] => false
  | a :: as, b :: bs => a == b && matchesAt as bs

/-- The single left-to-right pass of Go's `strings.NewReplacer` over the
three placeholders (which can never overlap: each contains `{` and `{{`
only at its start).  At a match the binding is emitted verbatim and the
scan resumes after the matched placeholder, so substituted text is never
rescanned. -/
def replScan (p i s : List Char) (l : List Char) : List Char :=
  match l with
  | [] => []
  | c :: cs =>
    if matchesAt phPrev (c :: cs) then
      p ++ replScan p i s ((c :: cs).drop phPrev.length)
    else if matchesAt phInit (c :: cs) then
      i ++ replScan p i s ((c :: cs).drop phInit.length)
    else if matchesAt phIdx (c :: cs) then
      s ++ replScan p i s ((c :: cs).drop phIdx.length)
    else c :: replScan p i s cs
termination_by l.length
decreasing_by
  · simp [List.length_drop]
    have hp : phPrev.length = 15 := by decide
    omega
  · simp [List.length_drop]
    have hp : phInit.length = 17 := by decide
    omega
  · simp [List.length_drop]
    have hp : phIdx.length = 14 := by decide
    omega
  · simp

/-- A template token: a literal character or one of the three
placeholders. -/
inductive TTok where
  | lit (c : Char)
  | prevOut
  | initInp
  | stepIdx
deriving DecidableEq

/-- Tokenization of a template by the same scan as `replScan`, but
independent of the bindings: the substitution sites are a function of the
template alone. -/
def tokenize (l : List Char) : List TTok :=
  match l with
  | [] => []
  | c :: cs =>
    if matchesAt phPrev (c :: cs) then
      TTok.prevOut :: tokenize ((c :: cs).drop phPrev.length)
    else if matchesAt phInit (c :: cs) then
      TTok.initInp :: tokenize ((c :: cs).drop phInit.length)
    else if matchesAt phIdx (c :: cs) then
      TTok.stepIdx :: tokenize ((c :: cs).drop phIdx.length)
    else TTok.lit c :: tokenize cs
termination_by l.length
decreasing_by
  · simp [List.length_drop]
    have hp : phPrev.length = 15 := by decide
    omega
  · simp [List.length_drop]
    have hp : phInit.length = 17 := by decide
    omega
  · simp [List.length_drop]
    have hp : phIdx.length = 14 := by decide
    omega
  · simp

/-- Rendering of a token list: literals are copied and each placeholder
token becomes its binding verbatim — no escaping and no re-expansion. -/
def renderToks (p i s : List Char) : List TTok → List Char
  | [] => []
  | TTok.lit c :: rest => c :: renderToks p i s rest
  | TTok.prevOut :: rest => p ++ renderToks p i s rest
  | TTok.initInp :: rest => i ++ renderToks p i s rest
  | TTok.stepIdx :: rest => s ++ renderToks p i s rest

/-- orchestrator/pipeline.go `resolveTemplate` on character lists; the
step index binding is Go's `fmt.Sprintf("%d", stepIndex)`. -/
def resolveTemplate (tmpl prevOutput initialInput : List Char)
    (stepIndex : Nat) : List Char :=
  if tmpl = [] then prevOutput
  else replScan prevOutput initialInput (Nat.repr stepIndex).data tmpl

/-- orchestrator/pipeline.go `resolveTemplate` on strings. -/
def resolveTemplateS (tmpl prevOutput initialInput : String)
    (stepIndex : Nat) : String :=
  String.mk (resolveTemplate tmpl.data prevOutput.data initialInput.data stepIndex)

/-- The `TaskRequest` built for pipeline step `i`: task id
`"{pipeline_id}_step_{i}"`, the expanded prompt, the step's type and
model hint. -/
def mkStepReq (pid initialInput : String) (i : Nat) (prevOutput : String)
    (step : PipelineStep) : TaskRequest :=
  { taskID := pid ++ "_step_" ++ toString i,
    prompt := resolveTemplateS step.promptTemplate prevOutput initialInput i,
    type := step.type, modelHint := step.modelHint }

/-- The step loop of orchestrator/pipeline.go `ExecutePipeline`.  `route`
is the `routeWithFailover` call as an oracle on the built `TaskRequest`;
wall-clock latencies are elided (0). -/
def pipelineLoop (route : TaskRequest → Except String TaskResult)
    (pid initialInput : String) (total : Nat) :
    List PipelineStep → Nat → String → List PipelineStepResult → PipelineResult
  | [], _, prevOutput, acc =>
    { pipelineID := pid, steps := acc, finalOutput := prevOutput,
      totalSteps := total, latencyMs := 0, success := true, error := "" }
  | step :: rest, i, prevOutput, acc =>
    match route (mkStepReq pid initialInput i prevOutput step) with
    | Except.error e =>
      let sr : PipelineStepResult :=
        { stepIndex := i, taskID := (mkStepReq pid initialInput i prevOutput step).taskID,
          type := step.type, routedTo := "", modelUsed := "", content := "",
          latencyMs := 0, success := false, error := e }
      { pipelineID := pid, steps := acc ++ [sr], finalOutput := "",
        totalSteps := total, latencyMs := 0, success := false,
        error := "step " ++ toString (i + 1) ++ " failed: " ++ e }
    | Except.ok tr =>
      let sr : PipelineStepResult :=
        { stepIndex := i, taskID := (mkStepReq pid initialInput i prevOutput step).taskID,
          type := step.type, routedTo := tr.routedTo, modelUsed := tr.modelUsed,
          content := tr.content, latencyMs := tr.latencyMs, success := true,
          error := "" }
      pipelineLoop route pid initialInput total rest (i + 1) tr.content (acc ++ [sr])

/-- orchestrator/pipeline.go `ExecutePipeline`: allocate the pipeline id
if absent (`freshID` is the uuid), then walk the steps threading
`prev_output`. -/
def ExecutePipeline (route : TaskRequest → Except String TaskResult)
    (freshID : String) (req : PipelineRequest) : PipelineResult :=
  let pid := if req.pipelineID = "" then freshID else req.pipelineID
  pipelineLoop route pid req.initialInput req.steps.length req.steps 0
    req.initialInput []

/-- A registry mutation, for traces over every operation the claims
mention. -/
inductive RegOp where
  | register (req : RegisterRequest) (now : Int)
  | heartbeat (req : HeartbeatRequest) (now : Int)
  | incrementLoad (id : String)
  | decrementLoad (id : String)
  | markSuspect (id : String)
  | evict (now : Int)
deriving DecidableEq

/-- Apply one registry operation. -/
def applyOp (s : Reg) : RegOp → Reg
  | RegOp.register req now => Register s req now
  | RegOp.heartbeat req now => (Heartbeat s req now).1
  | RegOp.incrementLoad id => IncrementLoad s id
  | RegOp.decrementLoad id => DecrementLoad s id
  | RegOp.markSuspect id => MarkSuspect s id
  | RegOp.evict now => evictPass s now

/-- Run a trace of registry operations from a state. -/
def runOps (s : Reg) (ops : List RegOp) : Reg :=
  ops.foldl applyOp s

/-- The operation is not a heartbeat, or reports a non-negative task
count. -/
def hbNonneg : RegOp → Prop
  | RegOp.heartbeat req _ => 0 ≤ req.activeTasks
  | _ => True

instance : DecidablePred hbNonneg := fun op =>
  match op with
  | RegOp.register _ _ => inferInstanceAs (Decidable True)
  | RegOp.heartbeat req _ => inferInstanceAs (Decidable (0 ≤ req.activeTasks))
  | RegOp.incrementLoad _ => inferInstanceAs (Decidable True)
  | RegOp.decrementLoad _ => inferInstanceAs (Decidable True)
  | RegOp.markSuspect _ => inferInstanceAs (Decidable True)
  | RegOp.evict _ => inferInstanceAs (Decidable True)

/-- The accumulator of one tier of `findTiers` in isolation: the running
minimum (by `pickBetter`) over the rows accepted by `q`. -/
def minBy (q : NodeInfo → Bool) : Reg → Option NodeInfo
  | [] => none
  | n :: rest => if q n then pickBetter (minBy q rest) n else minBy q rest

/-- A live idle worker declaring the `mistral` model for `text` and
`summarize` (the node-a of the repository's test scripts). -/
def c3node : NodeInfo :=
  { nodeID := "node-a", agentPort := 9001, ollamaPort := 11434,
    models := ["mistral"], capabilities := [⟨"mistral", ["text", "summarize"]⟩],
    status := StatusIdle, activeTasks := 0, lastHeartbeat := 0, registeredAt := 0 }

/-- A `code` task with no model hint. -/
def c3req : TaskRequest :=
  { taskID := "t", prompt := "x", type := "code", modelHint := "" }

/-- A worker response for the `code` task. -/
def c3res : TaskResult :=
  { taskID := "t", content := "ok", routedTo := "", modelUsed := "mistral",
    taskType := "", latencyMs := 0, success := true, error := "" }

/-- A live idle text worker used for the failover counterexample. -/
def c1node : NodeInfo :=
  { nodeID := "w1", agentPort := 9001, ollamaPort := 11434,
    models := ["mistral"], capabilities := [⟨"mistral", ["text"]⟩],
    status := StatusIdle, activeTasks := 0, lastHeartbeat := 0, registeredAt := 0 }

/-- A `text` task with no model hint. -/
def c1req : TaskRequest :=
  { taskID := "t1", prompt := "p", type := "text", modelHint := "" }

/-- A decoded worker response that reports failure: `success = false`
with an error message. -/
def c1res : TaskResult :=
  { taskID := "t1", content := "", routedTo := "", modelUsed := "mistral",
    taskType := "", latencyMs := 0, success := false, error := "model crashed" }

/-- A forward oracle whose worker always reports failure. -/
def c1fwd : String → Except String TaskResult := fun _ => Except.ok c1res

/-- Candidate whose model list contains the empty string. -/
def c2a1 : NodeInfo :=
  { nodeID := "a1", agentPort := 9001, ollamaPort := 11434, models := [""],
    capabilities := [], status := StatusIdle, activeTasks := 5,
    lastHeartbeat := 0, registeredAt := 0 }

/-- Lighter candidate with no models at all. -/
def c2a2 : NodeInfo :=
  { nodeID := "a2", agentPort := 9002, ollamaPort := 11434, models := [],
    capabilities := [], status := StatusIdle, activeTasks := 0,
    lastHeartbeat := 0, registeredAt := 0 }

/-- Candidate whose only `code` capability carries an empty model name. -/
def c2b1 : NodeInfo :=
  { nodeID := "b1", agentPort := 9001, ollamaPort := 11434, models := [],
    capabilities := [⟨"", ["code"]⟩], status := StatusIdle, activeTasks := 5,
    lastHeartbeat := 0, registeredAt := 0 }

/-- Lighter candidate with no capabilities. -/
def c2b2 : NodeInfo :=
  { nodeID := "b2", agentPort := 9002, ollamaPort := 11434, models := [],
    capabilities := [], status := StatusIdle, activeTasks := 0,
    lastHeartbeat := 0, registeredAt := 0 }

/-- Heavier worker declaring model `m`. -/
def c2wA : NodeInfo :=
  { nodeID := "wa", agentPort := 9001, ollamaPort := 11434, models := ["m"],
    capabilities := [], status := StatusIdle, activeTasks := 3,
    lastHeartbeat := 0, registeredAt := 0 }

/-- Lighter worker declaring model `m`. -/
def c2wB : NodeInfo :=
  { nodeID := "wb", agentPort := 9002, ollamaPort := 11434, models := ["m"],
    capabilities := [], status := StatusIdle, activeTasks := 1,
    lastHeartbeat := 0, registeredAt := 0 }

/-- A suspect-marking counterexample row: idle with one active task. -/
def c4n : NodeInfo :=
  { nodeID := "a", agentPort := 9001, ollamaPort := 11434, models := [],
    capabilities := [], status := StatusIdle, activeTasks := 1,
    lastHeartbeat := 0, registeredAt := 0 }

/-- Registry holding only `c4n`. -/
def c4s : Reg := [c4n]

/-- A live idle worker not in the probed exclusion set. -/
def c5node : NodeInfo :=
  { nodeID := "good", agentPort := 9001, ollamaPort := 11434,
    models := ["mistral"], capabilities := [⟨"mistral", ["text"]⟩],
    status := StatusIdle, activeTasks := 0, lastHeartbeat := 0, registeredAt := 0 }

/-- A one-step pipeline request. -/
def c6req : PipelineRequest :=
  { pipelineID := "p", steps := [{ type := "text", modelHint := "", promptTemplate := "" }],
    initialInput := "x" }

/-- The windows-11 worker of the repository's demo topology, declared at
host 192.168.1.7 with agent port 9001. -/
def c8node : NodeInfo :=
  { nodeID := "windows-11", agentPort := 9001, ollamaPort := 11434,
    models := ["mistral"], capabilities := [⟨"mistral", ["text", "summarize"]⟩],
    status := StatusIdle, activeTasks := 0, lastHeartbeat := 0, registeredAt := 0 }

/-- A different worker on the same agent port. -/
def c8node2 : NodeInfo :=
  { nodeID := "other", agentPort := 9001, ollamaPort := 11434, models := [],
    capabilities := [], status := StatusBusy, activeTasks := 7,
    lastHeartbeat := 99, registeredAt := 99 }

/-- A registration for node `a`. -/
def c9reg : RegisterRequest :=
  { nodeID := "a", agentPort := 9001, ollamaPort := 11434, models := [],
    capabilities := [], status := StatusIdle }

/-- Register `a`, then a heartbeat reporting a negative task count. -/
def c9ops : List RegOp :=
  [RegOp.register c9reg 0, RegOp.heartbeat ⟨"a", StatusIdle, -1⟩ 0]

/-- A trace whose heartbeats all report non-negative counts. -/
def c9wops : List RegOp :=
  [RegOp.register c9reg 0, RegOp.heartbeat ⟨"a", StatusBusy, 2⟩ 1,
   RegOp.incrementLoad "a", RegOp.decrementLoad "a", RegOp.decrementLoad "a",
   RegOp.decrementLoad "a", RegOp.decrementLoad "a", RegOp.markSuspect "a",
   RegOp.evict 20000]

/-- A row with zero active tasks. -/
def c9wn : NodeInfo :=
  { nodeID := "z", agentPort := 9001, ollamaPort := 11434, models := [],
    capabilities := [], status := StatusIdle, activeTasks := 0,
    lastHeartbeat := 0, registeredAt := 0 }

/-- Registry holding only `c9wn`. -/
def c9ws : Reg := [c9wn]

/-- A decoded streaming request with an empty prompt. -/
def c10req : TaskRequest :=
  { taskID := "", prompt := "", type := "", modelHint := "" }

/-- An arbitrary forward oracle for the unary handler. -/
def c10fwd : String → Except String TaskResult := fun _ => Except.error "x"

lemma pickBetter_isSome (cur : Option NodeInfo) (cand : NodeInfo) :
    ∃ w, pickBetter cur cand = some w := by
  cases cur with
  | none => exact ⟨cand, rfl⟩
  | some m =>
    by_cases h : cand.activeTasks < m.activeTasks
    · exact ⟨cand, by simp [pickBetter, h]⟩
    · exact ⟨m, by simp [pickBetter, h]⟩

lemma pickBetter_cases (cur : Option NodeInfo) (cand w : NodeInfo)
    (h : pickBetter cur cand = some w) : w = cand ∨ cur = some w := by
  cases cur with
  | none => left; simpa [pickBetter] using h.symm
  | some m =>
    by_cases hlt : cand.activeTasks < m.activeTasks
    · left; simp [pickBetter, hlt] at h; exact h.symm
    · right; simp [pickBetter, hlt] at h; rw [h]

lemma pickBetter_le (cur : Option NodeInfo) (cand w : NodeInfo)
    (h : pickBetter cur cand = some w) :
    w.activeTasks ≤ cand.activeTasks ∧
      ∀ m, cur = some m → w.activeTasks ≤ m.activeTasks := by
  cases cur with
  | none =>
    simp [pickBetter] at h
    subst h
    exact ⟨le_refl _, by intro m hm; cases hm⟩
  | some m =>
    by_cases hlt : cand.activeTasks < m.activeTasks
    · simp [pickBetter, hlt] at h
      subst h
      exact ⟨le_refl _, by intro m' hm'; cases hm'; exact le_of_lt hlt⟩
    · simp [pickBetter, hlt] at h
      subst h
      exact ⟨le_of_not_lt hlt, by intro m' hm'; cases hm'; exact le_refl _⟩

lemma minBy_eq_none_iff (q : NodeInfo → Bool) :
    ∀ s : Reg, minBy q s = none ↔ ∀ n ∈ s, q n = false := by
  intro s
  induction s with
  | nil => simp [minBy]
  | cons n rest ih =>
    by_cases hq : q n = true
    · obtain ⟨w, hw⟩ := pickBetter_isSome (minBy q rest) n
      simp [minBy, hq, hw]
    · simp only [Bool.not_eq_true] at hq
      simp [minBy, hq, ih]

lemma minBy_mem (q : NodeInfo → Bool) :
    ∀ (s : Reg) (w : NodeInfo), minBy q s = some w → w ∈ s ∧ q w = true := by
  intro s
  induction s with
  | nil => intro w h; simp [minBy] at h
  | cons n rest ih =>
    intro w h
    by_cases hq : q n = true
    · simp only [minBy, hq, if_pos] at h
      rcases pickBetter_cases _ _ _ h with hw | hw
      · subst hw; exact ⟨List.mem_cons_self _ _, hq⟩
      · obtain ⟨hmem, hqw⟩ := ih w hw
        exact ⟨List.mem_cons_of_mem _ hmem, hqw⟩
    · simp only [Bool.not_eq_true] at hq
      simp only [minBy, hq, Bool.false_eq_true, if_false] at h
      obtain ⟨hmem, hqw⟩ := ih w h
      exact ⟨List.mem_cons_of_mem _ hmem, hqw⟩

lemma minBy_min (q : NodeInfo → Bool) :
    ∀ (s : Reg) (w : NodeInfo), minBy q s = some w →
      ∀ n ∈ s, q n = true → w.activeTasks ≤ n.activeTasks := by
  intro s
  induction s with
  | nil => intro w h; simp [minBy] at h
  | cons n rest ih =>
    intro w h m hm hqm
    by_cases hq : q n = true
    · simp only [minBy, hq, if_pos] at h
      obtain ⟨hle_n, hle_cur⟩ := pickBetter_le _ _ _ h
      rcases List.mem_cons.mp hm with hm | hm
      · subst hm; exact hle_n
      · cases hrest : minBy q rest with
        | none =>
          have := (minBy_eq_none_iff q rest).mp hrest m hm
          rw [this] at hqm; cases hqm
        | some w' =>
          exact le_trans (hle_cur w' hrest) (ih w' hrest m hm hqm)
    · simp only [Bool.not_eq_true] at hq
      simp only [minBy, hq, Bool.false_eq_true, if_false] at h
      rcases List.mem_cons.mp hm with hm | hm
      · subst hm; rw [hq] at hqm; cases hqm
      · exact ih w h m hm hqm

lemma findTiers_eq (now : Int) (tt : TaskType) (hint : String)
    (excl : List String) :
    ∀ s : Reg, findTiers now tt hint excl s =
      (minBy (fun n => isCandidate now excl n && tier1Cond hint n) s,
       minBy (fun n => isCandidate now excl n && !tier1Cond hint n &&
         tier2Cond tt n) s,
       minBy (fun n => isCandidate now excl n && !tier1Cond hint n &&
         !tier2Cond tt n) s) := by
  intro s
  induction s with
  | nil => rfl
  | cons n rest ih =>
    simp only [findTiers, ih, minBy]
    by_cases hc : isCandidate now excl n = true
    · by_cases h1 : tier1Cond hint n = true
      · simp [hc, h1]
      · simp only [Bool.not_eq_true] at h1
        by_cases h2 : tier2Cond tt n = true
        · simp [hc, h1, h2]
        · simp only [Bool.not_eq_true] at h2
          simp [hc, h1, h2]
    · simp only [Bool.not_eq_true] at hc
      simp [hc]

lemma findBest_cases (now : Int) (tt : TaskType) (hint : String)
    (excl : List String) (s : Reg) (w : NodeInfo)
    (h : findBest now tt hint excl s = some w) :
    minBy (fun n => isCandidate now excl n && tier1Cond hint n) s = some w ∨
    (minBy (fun n => isCandidate now excl n && tier1Cond hint n) s = none ∧
     minBy (fun n => isCandidate now excl n && !tier1Cond hint n &&
       tier2Cond tt n) s = some w) ∨
    (minBy (fun n => isCandidate now excl n && tier1Cond hint n) s = none ∧
     minBy (fun n => isCandidate now excl n && !tier1Cond hint n &&
       tier2Cond tt n) s = none ∧
     minBy (fun n => isCandidate now excl n && !tier1Cond hint n &&
       !tier2Cond tt n) s = some w) := by
  unfold findBest at h
  rw [findTiers_eq] at h
  cases h1 : minBy (fun n => isCandidate now excl n && tier1Cond hint n) s with
  | some w1 => rw [h1] at h; simp at h; subst h; left; rfl
  | none =>
    rw [h1] at h
    cases h2 : minBy (fun n => isCandidate now excl n && !tier1Cond hint n &&
        tier2Cond tt n) s with
    | some w2 => rw [h2] at h; simp at h; subst h; right; left; exact ⟨rfl, rfl⟩
    | none =>
      rw [h2] at h
      cases h3 : minBy (fun n => isCandidate now excl n && !tier1Cond hint n &&
          !tier2Cond tt n) s with
      | some w3 => rw [h3] at h; simp at h; subst h; right; right; exact ⟨rfl, rfl, rfl⟩
      | none => rw [h3] at h; simp at h

lemma isCandidate_eq_true (now : Int) (excl : List String) (n : NodeInfo) :
    isCandidate now excl n = true ↔
      excl.contains n.nodeID = false ∧ now - n.lastHeartbeat < 15000 ∧
        n.status ≠ StatusOverloaded ∧ n.status ≠ StatusOffline := by
  simp [isCandidate, isAlive, Bool.and_eq_true, Bool.not_eq_true',
    bne_iff_ne, and_assoc]

/-- C5: `findBest` never returns a worker in the exclusion set, nor one
whose status is `offline` or `overloaded`, nor one whose last heartbeat is
15000 ms or more in the past — every returned worker passed the candidate
filter. -/
theorem findBest_never_returns_excluded_or_dead :
    ∀ (now : Int) (tt : TaskType) (hint : String) (excl : List String)
      (s : Reg) (w : NodeInfo),
      findBest now tt hint excl s = some w →
      excl.contains w.nodeID = false ∧ now - w.lastHeartbeat < 15000 ∧
        w.status ≠ StatusOverloaded ∧ w.status ≠ StatusOffline := by
  intro now tt hint excl s w h
  have hc : isCandidate now excl w = true := by
    rcases findBest_cases now tt hint excl s w h with h1 | ⟨_, h2⟩ | ⟨_, _, h3⟩
    · have hq := (minBy_mem _ s w h1).2
      simp only [Bool.and_eq_true] at hq
      exact hq.1
    · have hq := (minBy_mem _ s w h2).2
      simp only [Bool.and_eq_true] at hq
      exact hq.1.1
    · have hq := (minBy_mem _ s w h3).2
      simp only [Bool.and_eq_true] at hq
      exact hq.1.1
  exact (isCandidate_eq_true now excl w).mp hc

/-- Witness for C5: a concrete selection (with a non-trivial exclusion
set) on which the theorem's conclusions evaluate. -/
theorem findBest_never_returns_excluded_or_dead_witness :
    findBest 0 "text" "" ["other"] [c5node] = some c5node ∧
      (["other"].contains c5node.nodeID = false ∧
       (0 : Int) - c5node.lastHeartbeat < 15000 ∧
       c5node.status ≠ StatusOverloaded ∧ c5node.status ≠ StatusOffline) :=
  ⟨by decide,
   findBest_never_returns_excluded_or_dead 0 "text" "" ["other"] [c5node]
     c5node (by decide)⟩

/-- C2 (amended): tier priority and in-tier minimality of `findBest`.
Tier 1 requires a NON-EMPTY model hint contained in the candidate's model
list; tier 2 requires a non-`any` task type accepted by `CanHandle`
(whose first capability listing the type must carry a non-empty model
name).  Within the winning tier the returned worker has minimal
`activeTasks`; with both upper tiers empty it is minimal over all
candidates. -/
theorem findBest_tier_priority :
    ∀ (now : Int) (tt : TaskType) (hint : String) (excl : List String)
      (s : Reg) (w : NodeInfo),
      findBest now tt hint excl s = some w →
      (w ∈ s ∧ isCandidate now excl w = true) ∧
      ((∃ n ∈ s, isCandidate now excl n = true ∧ tier1Cond hint n = true) →
        tier1Cond hint w = true ∧
        ∀ n ∈ s, isCandidate now excl n = true → tier1Cond hint n = true →
          w.activeTasks ≤ n.activeTasks) ∧
      ((∀ n ∈ s, isCandidate now excl n = true → tier1Cond hint n = false) →
        (∃ n ∈ s, isCandidate now excl n = true ∧ tier2Cond tt n = true) →
        tier2Cond tt w = true ∧
        ∀ n ∈ s, isCandidate now excl n = true → tier2Cond tt n = true →
          w.activeTasks ≤ n.activeTasks) ∧
      ((∀ n ∈ s, isCandidate now excl n = true → tier1Cond hint n = false) →
        (∀ n ∈ s, isCandidate now excl n = true → tier2Cond tt n = false) →
        ∀ n ∈ s, isCandidate now excl n = true →
          w.activeTasks ≤ n.activeTasks) := by
  intro now tt hint excl s w h
  rcases findBest_cases now tt hint excl s w h with h1 | ⟨hn1, h2⟩ | ⟨hn1, hn2, h3⟩
  · obtain ⟨hmem, hq⟩ := minBy_mem _ s w h1
    simp only [Bool.and_eq_true] at hq
    refine ⟨⟨hmem, hq.1⟩, ?_, ?_, ?_⟩
    · intro _
      refine ⟨hq.2, ?_⟩
      intro n hn hcn ht1n
      exact minBy_min _ s w h1 n hn (by simp [hcn, ht1n])
    · intro h0 _
      exact absurd (h0 w hmem hq.1) (by simp [hq.2])
    · intro h0 _
      exact absurd (h0 w hmem hq.1) (by simp [hq.2])
  · obtain ⟨hmem, hq⟩ := minBy_mem _ s w h2
    simp only [Bool.and_eq_true, Bool.not_eq_true'] at hq
    refine ⟨⟨hmem, hq.1.1⟩, ?_, ?_, ?_⟩
    · rintro ⟨n, hn, hcn, ht1n⟩
      have := (minBy_eq_none_iff _ s).mp hn1 n hn
      simp [hcn, ht1n] at this
    · intro h0 _
      refine ⟨hq.2, ?_⟩
      intro n hn hcn ht2n
      exact minBy_min _ s w h2 n hn (by simp [hcn, h0 n hn hcn, ht2n])
    · intro _ h2all
      exact absurd (h2all w hmem hq.1.1) (by simp [hq.2])
  · obtain ⟨hmem, hq⟩ := minBy_mem _ s w h3
    simp only [Bool.and_eq_true, Bool.not_eq_true'] at hq
    refine ⟨⟨hmem, hq.1.1⟩, ?_, ?_, ?_⟩
    · rintro ⟨n, hn, hcn, ht1n⟩
      have := (minBy_eq_none_iff _ s).mp hn1 n hn
      simp [hcn, ht1n] at this
    · intro h0
      rintro ⟨n, hn, hcn, ht2n⟩
      have := (minBy_eq_none_iff _ s).mp hn2 n hn
      simp [hcn, h0 n hn hcn, ht2n] at this
    · intro h0 h2all n hn hcn
      exact minBy_min _ s w h3 n hn
        (by simp [hcn, h0 n hn hcn, h2all n hn hcn])

/-- Counterexample for C2 as stated.  Left: with the empty model hint, a
candidate whose model list contains `""` loses to a lighter candidate
whose model list does not (the code's tier 1 requires a non-empty hint).
Right: with task type `code`, a candidate holding a `code` capability
under an empty model name loses to a lighter candidate with no
capabilities at all (`CanHandle` rejects the empty model name). -/
theorem findBest_tier_priority_counterexample :
    (findBest 0 "" "" [] [c2a1, c2a2] = some c2a2 ∧
     isCandidate 0 [] c2a1 = true ∧ containsModel c2a1.models "" = true ∧
     containsModel c2a2.models "" = false) ∧
    (findBest 0 "code" "" [] [c2b1, c2b2] = some c2b2 ∧
     isCandidate 0 [] c2b1 = true ∧ (∃ c ∈ c2b1.capabilities, "code" ∈ c.types) ∧
     ¬ ∃ c ∈ c2b2.capabilities, "code" ∈ c.types) := by
  decide

/-- Witness for C2 (amended): a concrete two-worker tier-1 selection. -/
theorem findBest_tier_priority_witness :
    tier1Cond "m" c2wB = true ∧
      ∀ n ∈ [c2wA, c2wB], isCandidate 0 [] n = true → tier1Cond "m" n = true →
        c2wB.activeTasks ≤ n.activeTasks :=
  (findBest_tier_priority 0 "" "m" [] [c2wA, c2wB] c2wB (by decide)).2.1
    ⟨c2wB, by decide, by decide, by decide⟩

/-- C3 (code bug): with the only live worker capable of `text`/`summarize`
only, a `code` task does NOT fail with `no_worker`: `findBest` falls
through to tier 3 and returns that worker (`CanHandle` rejects `code`),
and `POST /task` forwards to it and returns its 200 result instead
of 503. -/
theorem findBest_tier3_fallthrough_on_unmatched_type :
    CanHandle c3node.capabilities "code" = false ∧
    findBest 0 "code" "" [] [c3node] = some c3node ∧
    handleTask (fun _ => Except.ok c3res) 0 [c3node] (some c3req) "u" =
      TaskEndpointResp.ok
        { c3res with routedTo := "node-a", taskType := "code", success := true } := by
  refine ⟨by decide, by decide, ?_⟩
  rfl

/-- C1 (amended): when the forward call yields any decoded `TaskResult` —
its worker-reported `success` flag regardless — the failover loop stops:
the result is returned with `routed_to` and `task_type` stamped and
`success` overwritten to `true`, and the registry change is exactly
increment-then-decrement of the chosen worker's load, with no suspect
marking and no reselection. -/
theorem routeWithFailover_decoded_result :
    ∀ (fwd : String → Except String TaskResult) (now : Int)
      (req : TaskRequest) (fuel : Nat) (tried : List String) (s : Reg)
      (node : NodeInfo) (res : TaskResult),
      findBest now req.type req.modelHint tried s = some node →
      fwd node.nodeID = Except.ok res →
      routeWithFailover fwd now req (fuel + 1) tried s =
        (Except.ok { res with routedTo := node.nodeID, taskType := req.type,
                              success := true },
         DecrementLoad (IncrementLoad s node.nodeID) node.nodeID) := by
  intro fwd now req fuel tried s node res hfind hfwd
  simp [routeWithFailover, hfind, hfwd]

/-- Counterexample for C1 as stated: the worker's response decodes to a
`TaskResult` with `success = false`, yet the router neither marks it
suspect nor reselects — it returns the result with `success` forced to
`true`, and the worker's row ends idle with its load restored. -/
theorem routeWithFailover_worker_failure_counterexample :
    c1fwd "w1" = Except.ok c1res ∧ c1res.success = false ∧
    (routeWithFailover c1fwd 0 c1req 2 [] [c1node]).1 =
      Except.ok { c1res with routedTo := "w1", taskType := "text",
                             success := true } ∧
    lookup (routeWithFailover c1fwd 0 c1req 2 [] [c1node]).2 "w1" =
      some c1node :=
  ⟨rfl, rfl, rfl, rfl⟩

/-- Witness for C1 (amended): the theorem applied to the concrete
one-worker registry and failing-worker oracle. -/
theorem routeWithFailover_decoded_result_witness :
    routeWithFailover c1fwd 0 c1req 1 [] [c1node] =
      (Except.ok { c1res with routedTo := "w1", taskType := "text",
                              success := true },
       DecrementLoad (IncrementLoad [c1node] "w1") "w1") :=
  routeWithFailover_decoded_result c1fwd 0 c1req 0 [] [c1node] c1node c1res
    (by decide) rfl

lemma lookup_setNode (s : Reg) (id : String) (f : NodeInfo → NodeInfo)
    (hf : ∀ n, (f n).nodeID = n.nodeID) :
    lookup (setNode s id f) id = (lookup s id).map f := by
  induction s with
  | nil => rfl
  | cons n rest ih =>
    by_cases hn : n.nodeID = id
    · simp [setNode, lookup, List.find?, hn, hf n] at ih ⊢
    · simp only [setNode, lookup, List.map, List.find?, hn, if_false] at ih ⊢
      have hb : (n.nodeID == id) = false := by simp [hn]
      simp [hb, ih]

lemma lookup_MarkSuspect (s : Reg) (id : String) (m : NodeInfo)
    (h : lookup s id = some m) :
    lookup (MarkSuspect s id) id = some { m with status := StatusOverloaded } := by
  rw [MarkSuspect,
    lookup_setNode s id (fun n => { n with status := StatusOverloaded })
      (fun n => rfl), h]
  rfl

lemma lookup_DecrementLoad (s : Reg) (id : String) (m : NodeInfo)
    (h : lookup s id = some m) :
    lookup (DecrementLoad s id) id =
      some { m with
        activeTasks := if m.activeTasks > 0 then m.activeTasks - 1
                       else m.activeTasks,
        status := if (if m.activeTasks > 0 then m.activeTasks - 1
                      else m.activeTasks) < 5 then StatusIdle else m.status } := by
  rw [DecrementLoad,
    lookup_setNode s id
      (fun n =>
        let a := if n.activeTasks > 0 then n.activeTasks - 1 else n.activeTasks
        { n with activeTasks := a,
                 status := if a < 5 then StatusIdle else n.status })
      (fun n => rfl), h]
  rfl

lemma lookup_IncrementLoad (s : Reg) (id : String) (m : NodeInfo)
    (h : lookup s id = some m) :
    lookup (IncrementLoad s id) id =
      some { m with activeTasks := m.activeTasks + 1,
                    status := if m.activeTasks + 1 ≥ 5 then StatusBusy
                              else m.status } := by
  rw [IncrementLoad,
    lookup_setNode s id
      (fun n =>
        let a := n.activeTasks + 1
        { n with activeTasks := a,
                 status := if a ≥ 5 then StatusBusy else n.status })
      (fun n => rfl), h]
  rfl

/-- C4 (amended): `mark_suspect`'s `overloaded` status is NOT sticky
until the next heartbeat: `decrement_load` overwrites it with `idle`
whenever the resulting task count is below 5, and `increment_load`
overwrites it with `busy` whenever the resulting count reaches 5; it
survives those operations only in the complementary cases.  In the
router's failover sequence the deferred `decrement_load` therefore clears
the suspect mark of any worker left below the threshold. -/
theorem markSuspect_not_sticky :
    ∀ (s : Reg) (id : String) (m : NodeInfo),
      lookup s id = some m →
      lookup (DecrementLoad (MarkSuspect s id) id) id =
        some { m with
          activeTasks := if m.activeTasks > 0 then m.activeTasks - 1
                         else m.activeTasks,
          status := if (if m.activeTasks > 0 then m.activeTasks - 1
                        else m.activeTasks) < 5 then StatusIdle
                    else StatusOverloaded } ∧
      lookup (IncrementLoad (MarkSuspect s id) id) id =
        some { m with activeTasks := m.activeTasks + 1,
                      status := if m.activeTasks + 1 ≥ 5 then StatusBusy
                                else StatusOverloaded } := by
  intro s id m h
  constructor
  · rw [lookup_DecrementLoad _ _ _ (lookup_MarkSuspect s id m h)]
  · rw [lookup_IncrementLoad _ _ _ (lookup_MarkSuspect s id m h)]

/-- Counterexample for C4 as stated: after `mark_suspect`, a single
`decrement_load` (no heartbeat involved) resets the row's status to
`idle`. -/
theorem markSuspect_not_sticky_counterexample :
    lookup (MarkSuspect c4s "a") "a" =
      some { c4n with status := StatusOverloaded } ∧
    lookup (DecrementLoad (MarkSuspect c4s "a") "a") "a" =
      some { c4n with status := StatusIdle, activeTasks := 0 } :=
  ⟨rfl, rfl⟩

/-- Witness for C4 (amended): the theorem applied to the concrete
one-row registry. -/
theorem markSuspect_not_sticky_witness :
    lookup (DecrementLoad (MarkSuspect c4s "a") "a") "a" =
      some { c4n with
        activeTasks := if c4n.activeTasks > 0 then c4n.activeTasks - 1
                       else c4n.activeTasks,
        status := if (if c4n.activeTasks > 0 then c4n.activeTasks - 1
                      else c4n.activeTasks) < 5 then StatusIdle
                  else StatusOverloaded } ∧
    lookup (IncrementLoad (MarkSuspect c4s "a") "a") "a" =
      some { c4n with activeTasks := c4n.activeTasks + 1,
                      status := if c4n.activeTasks + 1 ≥ 5 then StatusBusy
                                else StatusOverloaded } :=
  markSuspect_not_sticky c4s "a" c4n rfl

lemma applyOp_nonneg (s : Reg) (op : RegOp)
    (hs : ∀ n ∈ s, 0 ≤ n.activeTasks) (hop : hbNonneg op) :
    ∀ n ∈ applyOp s op, 0 ≤ n.activeTasks := by
  intro n hn
  cases op with
  | register req now =>
    simp only [applyOp, Register] at hn
    by_cases hany : s.any (fun x => x.nodeID == req.nodeID) = true
    · rw [if_pos hany] at hn
      rcases List.mem_map.mp hn with ⟨m, hm, rfl⟩
      by_cases hid : m.nodeID = req.nodeID
      · simp [hid]
      · simp only [hid, if_false]
        exact hs m hm
    · rw [if_neg hany] at hn
      rcases List.mem_append.mp hn with hn | hn
      · exact hs n hn
      · simp only [List.mem_singleton] at hn
        subst hn
        simp
  | heartbeat req now =>
    simp only [applyOp, Heartbeat] at hn
    by_cases hany : s.any (fun x => x.nodeID == req.nodeID) = true
    · rw [if_pos hany] at hn
      simp only [setNode] at hn
      rcases List.mem_map.mp hn with ⟨m, hm, rfl⟩
      by_cases hid : m.nodeID = req.nodeID
      · simp only [hid, if_pos]
        exact hop
      · simp only [hid, if_false]
        exact hs m hm
    · rw [if_neg hany] at hn
      exact hs n hn
  | incrementLoad id =>
    simp only [applyOp, IncrementLoad, setNode] at hn
    rcases List.mem_map.mp hn with ⟨m, hm, rfl⟩
    have := hs m hm
    by_cases hid : m.nodeID = id
    · simp only [hid, if_pos]
      omega
    · simp only [hid, if_false]
      exact this
  | decrementLoad id =>
    simp only [applyOp, DecrementLoad, setNode] at hn
    rcases List.mem_map.mp hn with ⟨m, hm, rfl⟩
    have := hs m hm
    by_cases hid : m.nodeID = id
    · simp only [hid, if_pos]
      by_cases hz : m.activeTasks > 0
      · simp only [hz, if_pos]
        omega
      · simp only [hz, if_false]
        exact this
    · simp only [hid, if_false]
      exact this
  | markSuspect id =>
    simp only [applyOp, MarkSuspect, setNode] at hn
    rcases List.mem_map.mp hn with ⟨m, hm, rfl⟩
    have := hs m hm
    by_cases hid : m.nodeID = id
    · simp only [hid, if_pos]
      exact this
    · simp only [hid, if_false]
      exact this
  | evict now =>
    simp only [applyOp, evictPass] at hn
    rcases List.mem_map.mp hn with ⟨m, hm, rfl⟩
    have := hs m hm
    by_cases hc : (m.status != StatusOffline && !isAlive now m) = true
    · simp only [hc, if_pos]
      exact this
    · simp only [Bool.not_eq_true] at hc
      simp only [hc, Bool.false_eq_true, if_false]
      exact this

lemma runOps_nonneg : ∀ (ops : List RegOp) (s : Reg),
    (∀ n ∈ s, 0 ≤ n.activeTasks) → (∀ op ∈ ops, hbNonneg op) →
    ∀ n ∈ runOps s ops, 0 ≤ n.activeTasks := by
  intro ops
  induction ops with
  | nil =>
    intro s hs _
    simpa [runOps] using hs
  | cons op rest ih =>
    intro s hs hops
    simp only [runOps, List.foldl] at ih ⊢
    exact ih (applyOp s op)
      (applyOp_nonneg s op hs (hops op (List.mem_cons_self _ _)))
      (fun o ho => hops o (List.mem_cons_of_mem _ ho))

/-- C9 (amended): every state reachable from the empty registry by
register, heartbeat, load, suspect, and eviction operations keeps
`active_tasks ≥ 0` on every row PROVIDED every heartbeat in the trace
reports a non-negative count (`Heartbeat` writes the reported value
verbatim, so a negative report breaks the invariant); and
`decrement_load` on a row at 0 leaves it at 0. -/
theorem activeTasks_nonneg_with_nonneg_heartbeats :
    (∀ ops : List RegOp, (∀ op ∈ ops, hbNonneg op) →
       ∀ n ∈ runOps [] ops, 0 ≤ n.activeTasks) ∧
    (∀ (s : Reg) (id : String) (m : NodeInfo),
       lookup s id = some m → m.activeTasks = 0 →
       lookup (DecrementLoad s id) id =
         some { m with activeTasks := 0, status := StatusIdle }) := by
  constructor
  · intro ops hops
    exact runOps_nonneg ops [] (by intro n hn; cases hn) hops
  · intro s id m h h0
    rw [lookup_DecrementLoad s id m h]
    simp [h0]

/-- Counterexample for C9 as stated: registering `a` and then processing
a heartbeat that reports `active_tasks = -1` produces a reachable state
with a negative row. -/
theorem activeTasks_negative_after_heartbeat :
    lookup (runOps [] c9ops) "a" =
      some { nodeID := "a", agentPort := 9001, ollamaPort := 11434,
             models := [], capabilities := [], status := StatusIdle,
             activeTasks := -1, lastHeartbeat := 0, registeredAt := 0 } ∧
    (-1 : Int) < 0 :=
  ⟨rfl, by decide⟩

/-- Witness for C9 (amended): a concrete trace with well-formed
heartbeats, and a concrete decrement at 0. -/
theorem activeTasks_nonneg_witness :
    (∀ n ∈ runOps [] c9wops, 0 ≤ n.activeTasks) ∧
    lookup (DecrementLoad c9ws "z") "z" =
      some { c9wn with activeTasks := 0, status := StatusIdle } :=
  ⟨activeTasks_nonneg_with_nonneg_heartbeats.1 c9wops (by decide),
   activeTasks_nonneg_with_nonneg_heartbeats.2 c9ws "z" c9wn rfl rfl⟩

/-- C10: `POST /task/stream` performs no prompt validation.  For every
decoded request with an empty prompt the streaming handler never answers
400; it answers 503 exactly when selection fails, and otherwise forwards
the request — empty prompt included — to the chosen worker.  `POST /task`
rejects the same body with 400 `prompt is required`. -/
theorem handleTaskStream_no_prompt_validation :
    ∀ (now : Int) (s : Reg) (req0 : TaskRequest) (uuid : String)
      (fwd : String → Except String TaskResult),
      req0.prompt = "" →
      (∀ msg, handleTaskStream now s (some req0) uuid ≠ StreamResp.badRequest msg) ∧
      (findBest now req0.type req0.modelHint [] s = none →
        handleTaskStream now s (some req0) uuid = StreamResp.unavailable) ∧
      (∀ w, findBest now req0.type req0.modelHint [] s = some w →
        ∃ r, handleTaskStream now s (some req0) uuid =
            StreamResp.streamTo w.nodeID r ∧
          r.prompt = "" ∧ r.type = req0.type ∧ r.modelHint = req0.modelHint) ∧
      handleTask fwd now s (some req0) uuid =
        TaskEndpointResp.badRequest "prompt is required" := by
  intro now s req0 uuid fwd hp
  by_cases hID : req0.taskID = ""
  · refine ⟨?_, ?_, ?_, ?_⟩
    · intro msg
      cases hfb : findBest now req0.type req0.modelHint [] s with
      | none => simp [handleTaskStream, hID, hfb]
      | some w => simp [handleTaskStream, hID, hfb]
    · intro hfb
      simp [handleTaskStream, hID, hfb]
    · intro w hfb
      exact ⟨{ req0 with taskID := uuid },
        by simp [handleTaskStream, hID, hfb], hp, rfl, rfl⟩
    · simp [handleTask, hID, hp]
  · refine ⟨?_, ?_, ?_, ?_⟩
    · intro msg
      cases hfb : findBest now req0.type req0.modelHint [] s with
      | none => simp [handleTaskStream, hID, hfb]
      | some w => simp [handleTaskStream, hID, hfb]
    · intro hfb
      simp [handleTaskStream, hID, hfb]
    · intro w hfb
      exact ⟨req0, by simp [handleTaskStream, hID, hfb], hp, rfl, rfl⟩
    · simp [handleTask, hID, hp]

/-- Witness for C10: the concrete empty-prompt request against an empty
registry: the stream handler answers 503 while the unary handler answers
400. -/
theorem handleTaskStream_no_prompt_validation_witness :
    handleTaskStream 0 [] (some c10req) "u" = StreamResp.unavailable ∧
    handleTask c10fwd 0 [] (some c10req) "u" =
      TaskEndpointResp.badRequest "prompt is required" :=
  ⟨(handleTaskStream_no_prompt_validation 0 [] c10req "u" c10fwd rfl).2.1 rfl,
   (handleTaskStream_no_prompt_validation 0 [] c10req "u" c10fwd rfl).2.2.2⟩

/-- C8 (amended): both forwards target the FIXED host `localhost` with
the worker's declared agent port — the URL depends on nothing in the
worker's record but `agent_port` (no host is even recorded at
registration), `/execute` for the unary forward and `/execute/stream`
for the streaming one. -/
theorem forwardURL_uses_localhost_and_agentPort :
    ∀ n n' : NodeInfo, n.agentPort = n'.agentPort →
      forwardTaskURL n = forwardTaskURL n' ∧
      forwardTaskStreamURL n = forwardTaskStreamURL n' ∧
      forwardTaskURL n =
        "http://localhost:" ++ toString n.agentPort ++ "/execute" ∧
      forwardTaskStreamURL n =
        "http://localhost:" ++ toString n.agentPort ++ "/execute/stream" := by
  intro n n' h
  refine ⟨?_, ?_, rfl, rfl⟩ <;>
    simp [forwardTaskURL, forwardTaskStreamURL, h]

/-- Counterexample for C8 as stated: the demo worker declared at host
192.168.1.7 with agent port 9001 is addressed at `localhost:9001`, not at
its declared host. -/
theorem forwardURL_ignores_declared_host :
    forwardTaskURL c8node = "http://localhost:9001/execute" ∧
    forwardTaskStreamURL c8node = "http://localhost:9001/execute/stream" ∧
    "http://localhost:9001/execute" ≠ "http://192.168.1.7:9001/execute" := by
  refine ⟨?_, ?_, ?_⟩ <;> decide

/-- Witness for C8 (amended): two distinct workers sharing an agent port
get identical forward URLs. -/
theorem forwardURL_uses_localhost_witness :
    forwardTaskURL c8node = forwardTaskURL c8node2 ∧
    forwardTaskStreamURL c8node = forwardTaskStreamURL c8node2 ∧
    forwardTaskURL c8node =
      "http://localhost:" ++ toString c8node.agentPort ++ "/execute" ∧
    forwardTaskStreamURL c8node =
      "http://localhost:" ++ toString c8node.agentPort ++ "/execute/stream" :=
  forwardURL_uses_localhost_and_agentPort c8node c8node2 rfl

lemma pipelineLoop_spec (route : TaskRequest → Except String TaskResult)
    (pid init : String) (total : Nat) :
    ∀ (steps : List PipelineStep) (i : Nat) (prev : String)
      (acc : List PipelineStepResult),
      (pipelineLoop route pid init total steps i prev acc).totalSteps = total ∧
      ((pipelineLoop route pid init total steps i prev acc).success = false →
        ∃ k e r new,
          (pipelineLoop route pid init total steps i prev acc).steps =
            acc ++ new ∧
          k < steps.length ∧ new.length = k + 1 ∧
          (∀ x ∈ new.take k, x.success = true) ∧
          new.drop k = [r] ∧ r.success = false ∧ r.error = e ∧
          (pipelineLoop route pid init total steps i prev acc).error =
            "step " ++ toString (i + k + 1) ++ " failed: " ++ e ∧
          (pipelineLoop route pid init total steps i prev acc).finalOutput = "") := by
  intro steps
  induction steps with
  | nil =>
    intro i prev acc
    refine ⟨rfl, ?_⟩
    intro hfail
    simp [pipelineLoop] at hfail
  | cons step rest ih =>
    intro i prev acc
    cases hr : route (mkStepReq pid init i prev step) with
    | error e =>
      have hstep : pipelineLoop route pid init total (step :: rest) i prev acc =
          { pipelineID := pid,
            steps := acc ++
              [{ stepIndex := i,
                 taskID := (mkStepReq pid init i prev step).taskID,
                 type := step.type, routedTo := "", modelUsed := "",
                 content := "", latencyMs := 0, success := false, error := e }],
            finalOutput := "", totalSteps := total, latencyMs := 0,
            success := false,
            error := "step " ++ toString (i + 1) ++ " failed: " ++ e } := by
        simp [pipelineLoop, hr]
      rw [hstep]
      refine ⟨rfl, ?_⟩
      intro _
      refine ⟨0, e,
        { stepIndex := i, taskID := (mkStepReq pid init i prev step).taskID,
          type := step.type, routedTo := "", modelUsed := "", content := "",
          latencyMs := 0, success := false, error := e },
        [{ stepIndex := i, taskID := (mkStepReq pid init i prev step).taskID,
           type := step.type, routedTo := "", modelUsed := "", content := "",
           latencyMs := 0, success := false, error := e }],
        rfl, ?_, rfl, ?_, rfl, rfl, rfl, ?_, rfl⟩
      · simp
      · intro x hx
        simp at hx
      · simp
    | ok tr =>
      have hstep : pipelineLoop route pid init total (step :: rest) i prev acc =
          pipelineLoop route pid init total rest (i + 1) tr.content
            (acc ++
              [{ stepIndex := i,
                 taskID := (mkStepReq pid init i prev step).taskID,
                 type := step.type, routedTo := tr.routedTo,
                 modelUsed := tr.modelUsed, content := tr.content,
                 latencyMs := tr.latencyMs, success := true, error := "" }]) := by
        simp [pipelineLoop, hr]
      rw [hstep]
      have IH := ih (i + 1) tr.content
        (acc ++
          [{ stepIndex := i, taskID := (mkStepReq pid init i prev step).taskID,
             type := step.type, routedTo := tr.routedTo,
             modelUsed := tr.modelUsed, content := tr.content,
             latencyMs := tr.latencyMs, success := true, error := "" }])
      refine ⟨IH.1, ?_⟩
      intro hfail
      obtain ⟨k, e, r, new, hsteps, hk, hlen, htake, hdrop, hrs, hre, herr, hfin⟩ :=
        IH.2 hfail
      refine ⟨k + 1, e, r,
        { stepIndex := i, taskID := (mkStepReq pid init i prev step).taskID,
          type := step.type, routedTo := tr.routedTo,
          modelUsed := tr.modelUsed, content := tr.content,
          latencyMs := tr.latencyMs, success := true, error := "" } :: new,
        ?_, ?_, ?_, ?_, ?_, hrs, hre, ?_, hfin⟩
      · rw [hsteps]
        simp
      · simp only [List.length_cons]
        omega
      · simp [hlen]
      · intro x hx
        rcases List.mem_cons.mp (by simpa [List.take] using hx) with rfl | hx'
        · rfl
        · exact htake x hx'
      · simpa [List.drop] using hdrop
      · have harith : i + 1 + k + 1 = i + (k + 1) + 1 := by omega
        rw [herr, harith]

/-- C6: if step `i` (0-based) is the first step whose routing fails, the
pipeline stops with `success = false`, error `step {i+1} failed: {err}`,
empty `final_output`, `total_steps` = number of requested steps, and
exactly `i+1` step results — the first `i` successful, the last one
failed; no later step is executed (no result exists for one). -/
theorem ExecutePipeline_first_failure :
    ∀ (route : TaskRequest → Except String TaskResult) (freshID : String)
      (req : PipelineRequest),
      (ExecutePipeline route freshID req).success = false →
      ∃ i e r, i < req.steps.length ∧
        (ExecutePipeline route freshID req).steps.length = i + 1 ∧
        (∀ x ∈ (ExecutePipeline route freshID req).steps.take i,
          x.success = true) ∧
        (ExecutePipeline route freshID req).steps.drop i = [r] ∧
        r.success = false ∧ r.error = e ∧
        (ExecutePipeline route freshID req).error =
          "step " ++ toString (i + 1) ++ " failed: " ++ e ∧
        (ExecutePipeline route freshID req).finalOutput = "" ∧
        (ExecutePipeline route freshID req).totalSteps = req.steps.length := by
  intro route freshID req hfail
  have hEP : ExecutePipeline route freshID req =
      pipelineLoop route (if req.pipelineID = "" then freshID else req.pipelineID)
        req.initialInput req.steps.length req.steps 0 req.initialInput [] := rfl
  rw [hEP] at hfail ⊢
  have H := pipelineLoop_spec route
    (if req.pipelineID = "" then freshID else req.pipelineID)
    req.initialInput req.steps.length req.steps 0 req.initialInput []
  obtain ⟨k, e, r, new, hsteps, hk, hlen, htake, hdrop, hrs, hre, herr, hfin⟩ :=
    H.2 hfail
  simp only [List.nil_append] at hsteps
  refine ⟨k, e, r, hk, ?_, ?_, ?_, hrs, hre, ?_, hfin, H.1⟩
  · rw [hsteps, hlen]
  · intro x hx
    rw [hsteps] at hx
    exact htake x hx
  · rw [hsteps, hdrop]
  · simpa using herr

/-- Witness for C6: a one-step pipeline whose only step fails. -/
theorem ExecutePipeline_first_failure_witness :
    ∃ i e r, i < c6req.steps.length ∧
      (ExecutePipeline (fun _ => Except.error "boom") "u" c6req).steps.length =
        i + 1 ∧
      (∀ x ∈ (ExecutePipeline (fun _ => Except.error "boom") "u" c6req).steps.take i,
        x.success = true) ∧
      (ExecutePipeline (fun _ => Except.error "boom") "u" c6req).steps.drop i =
        [r] ∧
      r.success = false ∧ r.error = e ∧
      (ExecutePipeline (fun _ => Except.error "boom") "u" c6req).error =
        "step " ++ toString (i + 1) ++ " failed: " ++ e ∧
      (ExecutePipeline (fun _ => Except.error "boom") "u" c6req).finalOutput = "" ∧
      (ExecutePipeline (fun _ => Except.error "boom") "u" c6req).totalSteps =
        c6req.steps.length :=
  ExecutePipeline_first_failure (fun _ => Except.error "boom") "u" c6req rfl

lemma replScan_eq_render (p i s : List Char) :
    ∀ l, replScan p i s l = renderToks p i s (tokenize l) := by
  have hp15 : phPrev.length = 15 := by decide
  have hp17 : phInit.length = 17 := by decide
  have hp14 : phIdx.length = 14 := by decide
  have H : ∀ (n : Nat), ∀ (l : List Char), l.length ≤ n →
      replScan p i s l = renderToks p i s (tokenize l) := by
    intro n
    induction n with
    | zero =>
      intro l hl
      have hnil : l = [] := by
        cases l with
        | nil => rfl
        | cons c cs => simp at hl
      subst hnil
      simp [replScan, tokenize, renderToks]
    | succ n ihn =>
      intro l hl
      cases l with
      | nil => simp [replScan, tokenize, renderToks]
      | cons c cs =>
        simp only [List.length_cons] at hl
        by_cases h1 : matchesAt phPrev (c :: cs) = true
        · simp only [replScan, tokenize, h1, if_true, renderToks]
          congr 1
          apply ihn
          simp only [List.length_drop, List.length_cons, hp15]
          omega
        · by_cases h2 : matchesAt phInit (c :: cs) = true
          · simp only [replScan, tokenize, h1, h2, if_true, if_false,
              Bool.false_eq_true, renderToks]
            congr 1
            apply ihn
            simp only [List.length_drop, List.length_cons, hp17]
            omega
          · by_cases h3 : matchesAt phIdx (c :: cs) = true
            · simp only [replScan, tokenize, h1, h2, h3, if_true, if_false,
                Bool.false_eq_true, renderToks]
              congr 1
              apply ihn
              simp only [List.length_drop, List.length_cons, hp14]
              omega
            · simp only [replScan, tokenize, h1, h2, h3, if_false,
                Bool.false_eq_true, renderToks]
              congr 1
              apply ihn
              omega
  intro l
  exact H l.length l (le_refl _)

/-- C7: template expansion is pure literal one-pass substitution.  An
empty template returns `prev_output` verbatim; otherwise the result is
the rendering of the template's tokenization, where the tokenization
(the set of substitution sites) depends on the template alone and
`renderToks` splices each binding in verbatim — so text introduced by a
substitution is never re-scanned (no recursive re-expansion) and no
escaping exists.  The placeholders cannot overlap (each contains `{{`
only at its start), so the single pass replaces every occurrence. -/
theorem resolveTemplate_literal_substitution :
    ∀ (tmpl prevOutput initialInput : List Char) (stepIndex : Nat),
      resolveTemplate tmpl prevOutput initialInput stepIndex =
        if tmpl = [] then prevOutput
        else renderToks prevOutput initialInput (Nat.repr stepIndex).data
          (tokenize tmpl) := by
  intro tmpl p i k
  by_cases h : tmpl = []
  · simp [resolveTemplate, h]
  · simp [resolveTemplate, h, replScan_eq_render]

end EchoMesh
